import Mathlib

/-!
Verification of the cornucopia field-of-view transforms (`fov.py`) and random
samplers (`random.py`): a shallow embedding of the region-geometry and sampler
code, with theorems settling the specification claims.

Conventions of the embedding:
* Python floats are modelled as exact rationals (`ℚ`); `math.floor` is `Int.floor`.
* Tensors enter the geometry code only through their per-axis extents, so a
  spatial axis is modelled by its extent (an `Int` or `Nat`) and, where element
  values matter (crop/pad), by a `List` of its elements.
* The process-global random source is made explicit: each primitive draw is a
  parameter of the embedded function (`u` for a `random.randint` draw, a
  permuted list for `random.shuffle`), constrained by hypotheses that state
  exactly the values the primitive can produce.
* Fallible constructors/calls return `Except String`, mirroring `raise ValueError`.
-/

/-- Result of one axis of `PatchTransform.get_parameters` (fov.py lines 87-95):
the clamped crop slice `[first, last)` together with the two padding amounts
appended to the flat padding list. -/
structure PatchAxis where
  first : Int
  last : Int
  padFirst : Int
  padLast : Int
deriving Repr, DecidableEq

/-- Relative-to-voxel center mapping of `PatchTransform.get_parameters`
(fov.py line 84): `(c + 1) / 2 * (s - 1)`. -/
def relCenter (c : ℚ) (sv : Int) : ℚ := (c + 1) / 2 * ((sv : ℚ) - 1)

/-- Loop body of `PatchTransform.get_parameters` (fov.py lines 87-95) for one
axis: `first = floor(cc - ss/2)`; `pad_first = max(0, -first)`;
`last = first + ss`; `pad_last = max(0, last - sv)`; then `first` is clamped to
`0` and `last` to the extent `sv`. -/
def patchAxis (ss : Int) (c : ℚ) (sv : Int) : PatchAxis :=
  let cc := relCenter c sv
  let first := Int.floor (cc - (ss : ℚ) / 2)
  let padFirst := max 0 (-first)
  let last := first + ss
  let padLast := max 0 (last - sv)
  let first := max 0 first
  let last := min sv last
  ⟨first, last, padFirst, padLast⟩

/-- `PatchTransform.get_parameters` (fov.py lines 80-96): the per-axis loop
over `zip(shape, center, x.shape[1:])`, after `shape` and `center` have been
normalized to one entry per spatial axis. -/
def PatchTransform_get_parameters : List Int → List ℚ → List Int → List PatchAxis
  | ss :: shape, c :: center, sv :: extents =>
      patchAxis ss c sv :: PatchTransform_get_parameters shape center extents
  | _, _, _ => []

/-- `RandomPatchTransform.get_parameters` (fov.py line 122): the lower end of
the admissible center range for one axis, `max(p/s - 1, -1)`. -/
def RandomPatchTransform_min_center (p s : ℚ) : ℚ := max (p / s - 1) (-1)

/-- `RandomPatchTransform.get_parameters` (fov.py line 123): the upper end of
the admissible center range for one axis, `min(1 - p/s, 1)`. -/
def RandomPatchTransform_max_center (p s : ℚ) : ℚ := min (1 - p / s) 1

/-- `PowerTwoTransform.get_parameters` (fov.py lines 244-248): the list
comprehension `[max(2 ** e, s) for s, e in zip(exponent, shape)]`.  Note the
destructuring: `zip(exponent, shape)` pairs each configured exponent with the
axis extent, so `s` is bound to the exponent and `e` to the extent. -/
def PowerTwoTransform_get_parameters (exponent : List Nat) (shape : List Nat) : List Nat :=
  (exponent.zip shape).map (fun se => max (2 ^ se.2) se.1)

lemma patchAxis_floor_lb (ss sv : Int) (c : ℚ) (hss : 1 ≤ ss) (hsv : 1 ≤ sv)
    (hc1 : -1 ≤ c) (_hc2 : c ≤ 1) :
    -ss ≤ Int.floor (relCenter c sv - (ss : ℚ) / 2) := by
  rw [Int.le_floor]
  have hsv' : (1 : ℚ) ≤ (sv : ℚ) := by exact_mod_cast hsv
  have hss' : (1 : ℚ) ≤ (ss : ℚ) := by exact_mod_cast hss
  have hcc0 : 0 ≤ relCenter c sv := by
    unfold relCenter
    have h1 : (0 : ℚ) ≤ (c + 1) / 2 := by linarith
    have h2 : (0 : ℚ) ≤ (sv : ℚ) - 1 := by linarith
    exact mul_nonneg h1 h2
  push_cast
  linarith

lemma patchAxis_floor_ub (ss sv : Int) (c : ℚ) (hss : 1 ≤ ss) (hsv : 1 ≤ sv)
    (_hc1 : -1 ≤ c) (hc2 : c ≤ 1) :
    Int.floor (relCenter c sv - (ss : ℚ) / 2) ≤ sv - 1 := by
  have hsv' : (1 : ℚ) ≤ (sv : ℚ) := by exact_mod_cast hsv
  have hss' : (1 : ℚ) ≤ (ss : ℚ) := by exact_mod_cast hss
  have hcc1 : relCenter c sv ≤ (sv : ℚ) - 1 := by
    unfold relCenter
    have h2 : (0 : ℚ) ≤ (sv : ℚ) - 1 := by linarith
    have h1 : (c + 1) / 2 ≤ 1 := by linarith
    nlinarith
  have hle : relCenter c sv - (ss : ℚ) / 2 ≤ ((sv - 1 : Int) : ℚ) := by
    push_cast
    linarith
  calc Int.floor (relCenter c sv - (ss : ℚ) / 2)
      ≤ Int.floor ((sv - 1 : Int) : ℚ) := Int.floor_le_floor hle
    _ = sv - 1 := Int.floor_intCast _

lemma patchGetParameters_getElem :
    ∀ (shape : List Int) (center : List ℚ) (extents : List Int) (i : Nat)
      (ss : Int) (c : ℚ) (sv : Int),
      shape[i]? = some ss → center[i]? = some c → extents[i]? = some sv →
      (PatchTransform_get_parameters shape center extents)[i]? = some (patchAxis ss c sv) := by
  intro shape
  induction shape with
  | nil => intro center extents i ss c sv h1 _ _; simp at h1
  | cons s0 srest ih =>
    intro center extents i ss c sv h1 h2 h3
    cases center with
    | nil => simp at h2
    | cons c0 crest =>
      cases extents with
      | nil => simp at h3
      | cons v0 vrest =>
        cases i with
        | zero =>
          simp only [List.getElem?_cons_zero, Option.some.injEq] at h1 h2 h3
          subst h1; subst h2; subst h3
          simp [PatchTransform_get_parameters]
        | succ n =>
          simp only [List.getElem?_cons_succ] at h1 h2 h3
          simpa [PatchTransform_get_parameters] using ih crest vrest n ss c sv h1 h2 h3

/-- C1: for every input tensor, every positive requested patch shape and every
center in `[-1, 1]`, the crop slice and padding amounts computed by
`PatchTransform.get_parameters` satisfy, on every axis `i` of extent `sv ≥ 1`:
the slice length plus the two padding amounts equals the requested shape,
`0 ≤ first ≤ last ≤ sv` (so the slice length never exceeds the source extent),
and both padding amounts are nonnegative. -/
theorem patchTransform_crop_pad_exact
    (shape : List Int) (center : List ℚ) (extents : List Int) (i : Nat)
    (ss : Int) (c : ℚ) (sv : Int)
    (hgs : shape[i]? = some ss) (hgc : center[i]? = some c) (hgv : extents[i]? = some sv)
    (hss : 1 ≤ ss) (hsv : 1 ≤ sv) (hc1 : -1 ≤ c) (hc2 : c ≤ 1) :
    (PatchTransform_get_parameters shape center extents)[i]? = some (patchAxis ss c sv)
    ∧ ((patchAxis ss c sv).last - (patchAxis ss c sv).first)
        + (patchAxis ss c sv).padFirst + (patchAxis ss c sv).padLast = ss
    ∧ 0 ≤ (patchAxis ss c sv).first
    ∧ (patchAxis ss c sv).first ≤ (patchAxis ss c sv).last
    ∧ (patchAxis ss c sv).last ≤ sv
    ∧ (patchAxis ss c sv).last - (patchAxis ss c sv).first ≤ sv
    ∧ 0 ≤ (patchAxis ss c sv).padFirst
    ∧ 0 ≤ (patchAxis ss c sv).padLast := by
  have hlb := patchAxis_floor_lb ss sv c hss hsv hc1 hc2
  have hub := patchAxis_floor_ub ss sv c hss hsv hc1 hc2
  refine ⟨patchGetParameters_getElem shape center extents i ss c sv hgs hgc hgv, ?_⟩
  simp only [patchAxis]
  refine ⟨?_, ?_, ?_, ?_, ?_, ?_, ?_⟩ <;> omega

/-- Witness for C1 at `shape = [4]`, `center = [0]`, `extents = [6]`, axis 0:
the resolved slice is `[0, 4)` with no padding. -/
theorem patchTransform_crop_pad_exact_witness :
    (([4] : List Int)[0]? = some 4 ∧ (([0] : List ℚ))[0]? = some 0
      ∧ (([6] : List Int))[0]? = some 6)
    ∧ ((PatchTransform_get_parameters [4] [0] [6])[0]? = some (patchAxis 4 0 6)
       ∧ ((patchAxis 4 0 6).last - (patchAxis 4 0 6).first)
           + (patchAxis 4 0 6).padFirst + (patchAxis 4 0 6).padLast = 4
       ∧ 0 ≤ (patchAxis 4 0 6).first
       ∧ (patchAxis 4 0 6).first ≤ (patchAxis 4 0 6).last
       ∧ (patchAxis 4 0 6).last ≤ 6
       ∧ (patchAxis 4 0 6).last - (patchAxis 4 0 6).first ≤ 6
       ∧ 0 ≤ (patchAxis 4 0 6).padFirst
       ∧ 0 ≤ (patchAxis 4 0 6).padLast) :=
  ⟨⟨rfl, rfl, rfl⟩,
   patchTransform_crop_pad_exact [4] [0] [6] 0 4 0 6 rfl rfl rfl
     (by norm_num) (by norm_num) (by norm_num) (by norm_num)⟩

/-- C2: evaluating `PowerTwoTransform.get_parameters` at exponent 3 and a
single spatial axis of extent 10.  Because the comprehension destructures
`zip(exponent, shape)` as `s, e`, the computed target size is
`max(2 ** 10, 3) = 1024` — not `max(2 ** 3, 10) = 10`, and not the 16 the
claim requires. -/
theorem powerTwoTransform_swapped_zip :
    PowerTwoTransform_get_parameters [3] [10] = [1024]
    ∧ PowerTwoTransform_get_parameters [3] [10] ≠ [16]
    ∧ PowerTwoTransform_get_parameters [3] [10] ≠ [max (2 ^ 3) 10] := by
  refine ⟨rfl, ?_, ?_⟩ <;> decide

/-- C5: with patch size 4 on an axis of extent 4 (patch no larger than the
source), the admissible center range of `RandomPatchTransform.get_parameters`
collapses to `[0, 0]`, so the drawn center is necessarily `0`; yet the patch
resolution at that center yields `pad_before = 1`, not the zero padding the
claim requires. -/
theorem randomPatchTransform_pads_inside_bounds :
    RandomPatchTransform_min_center 4 4 = 0
    ∧ RandomPatchTransform_max_center 4 4 = 0
    ∧ patchAxis 4 0 4 = ⟨0, 3, 1, 0⟩
    ∧ (patchAxis 4 0 4).padFirst ≠ 0 := by
  refine ⟨?_, ?_, ?_, ?_⟩
  · norm_num [RandomPatchTransform_min_center, max_def]
  · norm_num [RandomPatchTransform_max_center, min_def]
  · norm_num [patchAxis, relCenter, PatchAxis.mk.injEq]
  · norm_num [patchAxis, relCenter]

/-- Python list slicing `xs[c0:-c1]` for nonnegative `c0`, `c1` (with `-c1`
replaced by `None`, i.e. the end of the list, when `c1 == 0`), as produced by
`CropTransform.apply_transform`'s `slice(c, -c if c else None)`. -/
def pySlice (c0 c1 : Nat) (x : List α) : List α :=
  if c1 = 0 then x.drop c0 else (x.take (x.length - c1)).drop c0

/-- Python extended slicing `xs[::2]` (every other element, starting at 0),
used for `cropping[::2]` in `CropTransform.apply_transform`. -/
def sliceStep2 : List α → List α
  | [] => []
  | [a] => [a]
  | a :: _ :: rest => a :: sliceStep2 rest

/-- `CropTransform.apply_transform`, `side is None` branch, `unit='vox'`
(fov.py lines 164-172): `cropping = ensure_list(cropping)` (identity on a
list), then `cropping = [0] * (2*ndim - len(cropping))` — the statement that
replaces the user-supplied amounts by a list of zeros — then the pre/post
pairs `zip(cropping[::2], cropping[1::2])`. -/
def CropTransform_resolve_sideNone (cropping : List Nat) (ndim : Nat) : List (Nat × Nat) :=
  let cropping := List.replicate (2 * ndim - cropping.length) 0
  (sliceStep2 cropping).zip (sliceStep2 (cropping.drop 1))

/-- `CropTransform.apply_transform`, `side is None` branch, applied to a tensor
with a single spatial axis (modelled by the list of its elements): the slice
tuple `(Ellipsis, *cropping)` applies the resolved pre/post pair, if any, to
that axis. -/
def CropTransform_apply_sideNone (cropping : List Nat) (x : List α) : List α :=
  match CropTransform_resolve_sideNone cropping 1 with
  | [] => x
  | (c0, c1) :: _ => pySlice c0 c1 x

/-- `PadTransform.apply_transform`, `side is None` branch, `unit='vox'`
(fov.py lines 215-217): `padding = ensure_list(padding)` then
`padding = [0] * (2 * ndim - len(padding))`; the resulting list is what is
forwarded to the boundary-extension primitive `pad`. -/
def PadTransform_resolve_sideNone (padding : List Nat) (ndim : Nat) : List Nat :=
  List.replicate (2 * ndim - padding.length) 0

/-- C3: with one spatial axis and the explicit two-sided specification
`[1, 2]` (`side=None`, `unit='vox'`), `CropTransform.apply_transform` returns
the input unchanged — the amounts having been overwritten by
`[0] * (2*ndim - len(cropping)) = []` — and `PadTransform.apply_transform`
forwards `[]` to the boundary-extension primitive, not the two amounts. -/
theorem cropPad_sideNone_amounts_discarded :
    CropTransform_apply_sideNone [1, 2] [10, 20, 30, 40, 50] = [10, 20, 30, 40, 50]
    ∧ CropTransform_apply_sideNone [1, 2] [10, 20, 30, 40, 50] ≠ [20, 30]
    ∧ PadTransform_resolve_sideNone [1, 2] 1 = []
    ∧ PadTransform_resolve_sideNone [1, 2] 1 ≠ [1, 2] := by
  refine ⟨rfl, ?_, rfl, ?_⟩ <;> decide

/-- The non-`None` values of the `side` policy shared by `CropTransform` and
`PadTransform`. -/
inductive Side where
  | pre
  | post
  | both
deriving Repr, DecidableEq

/-- Modelled from the spec: the side policy of the boundary-extension
primitive `cornucopia.utils.padding.pad` (not under `src/`): a per-axis amount
`p` together with a side policy extends the axis by `p` synthesized values
before it (`'pre'`), after it (`'post'`), or on both sides (`'both'`);
returned here as the pair (amount before, amount after). -/
def padSideAmounts (side : Side) (p : Nat) : Nat × Nat :=
  match side with
  | .pre => (p, 0)
  | .post => (0, p)
  | .both => (p, p)

/-- Modelled from the spec: the boundary-extension primitive receives the
amounts and boundary mode and returns the array extended by synthesized
values; only the amounts are decided by this core, so the synthesized values
appear here as explicit lists `pre` and `post` (their contents depend on the
out-of-scope boundary mode). -/
def padPrimitive (pre post : List α) (x : List α) : List α := pre ++ x ++ post

/-- `CropTransform.apply_transform`, `side is not None` branch, `unit='vox'`
(fov.py lines 158-163), for one spatial axis with per-axis amount `c`:
the slice is `slice(c, -c if c else None)` — the stored `side` is never
consulted, so the same two-sided slice is used for `'pre'`, `'post'` and
`'both'` alike. -/
def CropTransform_apply_sided (c : Nat) (x : List α) : List α := pySlice c c x

/-- C4: padding `x = [1, 2, 3]` by `p = 1` with `side='pre'` (one synthesized
value, here 0, in front per the primitive's side policy) and then cropping by
`p = 1` with `side='pre'` yields `[1, 2]`, not `x`: the crop ignores `side`
and slices `slice(1, -1)`, removing one voxel from each end. -/
theorem padCrop_roundtrip_side_pre_fails :
    padSideAmounts Side.pre 1 = (1, 0)
    ∧ CropTransform_apply_sided 1 (padPrimitive [0] [] [1, 2, 3]) = [1, 2]
    ∧ CropTransform_apply_sided 1 (padPrimitive [0] [] [1, 2, 3]) ≠ [1, 2, 3] := by
  refine ⟨rfl, rfl, ?_⟩
  decide

/-- Message of the `ValueError` raised by `Uniform.__init__` and
`RandInt.__init__` when no upper bound is given. -/
def errNoMax : String := "Expected at least one argument"

/-- Message of the `ValueError` raised by `RandKFrom.__init__` when more
unique picks are requested than available. -/
def errTooMany : String := "Cannot sample more element than available. To sample with replacement, use replacement=True"

/-- Message of the `ValueError` raised by `RandKFrom.__call__` when `n` is
supplied. -/
def errMulti : String := "RandKFrom cannot sample multiple elements"

/-- Message standing for the `IndexError` Python raises on out-of-range list
indexing (reachable in `RandKFrom.__call__`'s replacement branch). -/
def errIndexOut : String := "IndexError"

/-- `Uniform.__init__` (random.py lines 107-132): resolve `min`/`max` from the
positional arguments and the `min`/`max` keywords, defaulting `min` to 0, and
raise `ValueError` when no `max` was given; on success the stored theta is the
resolved `(min, max)` pair. -/
def Uniform_init (args : List ℚ) (kwmin kwmax : Option ℚ) : Except String (ℚ × ℚ) :=
  let mn : ℚ := 0
  let mx : Option ℚ := none
  let p : ℚ × Option ℚ :=
    if args.length = 2 then (args.getD 0 0, some (args.getD 1 0))
    else if args.length = 1 then (mn, some (args.getD 0 0))
    else (mn, mx)
  let mn := match kwmin with | some v => v | none => p.1
  let mx := match kwmax with | some v => some v | none => p.2
  match mx with
  | none => Except.error errNoMax
  | some m => Except.ok (mn, m)

/-- `RandInt.__init__` (random.py lines 143-168): identical resolution of
`min`/`max` (the source duplicates the code of `Uniform.__init__`), over
integers. -/
def RandInt_init (args : List Int) (kwmin kwmax : Option Int) : Except String (Int × Int) :=
  let mn : Int := 0
  let mx : Option Int := none
  let p : Int × Option Int :=
    if args.length = 2 then (args.getD 0 0, some (args.getD 1 0))
    else if args.length = 1 then (mn, some (args.getD 0 0))
    else (mn, mx)
  let mn := match kwmin with | some v => v | none => p.1
  let mx := match kwmax with | some v => some v | none => p.2
  match mx with
  | none => Except.error errNoMax
  | some m => Except.ok (mn, m)

/-- Scalar call of `RandInt` (random.py line 174): `random.randint(min, max)`
draws uniformly from the closed interval `[min, max]`; the underlying uniform
draw is made explicit as `u ∈ {0, ..., (max - min).toNat}` and the sample is
`min + u`. -/
def randIntScalar (mn _mx : Int) (u : Nat) : Int := mn + u

/-- The argument `n` of a sampler's `__call__`: absent (`None`), an integer
count, or a list/tuple shape. -/
inductive PyArg where
  | int (i : Int)
  | shape (l : List Nat)
deriving Repr, DecidableEq

/-- Python truthiness of the argument `n` as tested by `or n` in
`RandKFrom.__call__`: `None` and `0` are falsy, any other integer is truthy
(list/tuple arguments are caught by the preceding `isinstance` test). -/
def pyTruthy : Option PyArg → Bool
  | none => false
  | some (PyArg.int i) => i != 0
  | some (PyArg.shape _) => true

/-- The `isinstance(n, (list, tuple))` test of `RandKFrom.__call__`. -/
def isListOrTuple : Option PyArg → Bool
  | some (PyArg.shape _) => true
  | _ => false

/-- The state stored by `RandKFrom.__init__` on success: the candidate list
(`list(range)` — a copy of the argument), `k`, and the replacement flag. -/
structure RandKFrom (α : Type) where
  range : List α
  k : Option Nat
  replacement : Bool
deriving Repr, DecidableEq

/-- The test `not replacement and k and k > len(range)` of `RandKFrom.__init__`
(random.py line 194): `k` is truthy (not `None`, nonzero) and exceeds the
number of candidates. -/
def kTruthyExceeds (k : Option Nat) (m : Nat) : Bool :=
  match k with
  | some kk => kk != 0 && decide (m < kk)
  | none => false

/-- `RandKFrom.__init__` (random.py lines 180-199): raise `ValueError` when
sampling without replacement and `k` is a truthy integer exceeding
`len(range)`; otherwise store the configuration. -/
def RandKFrom_init (range : List α) (k : Option Nat) (replacement : Bool) :
    Except String (RandKFrom α) :=
  if !replacement && kTruthyExceeds k range.length then Except.error errTooMany
  else Except.ok ⟨range, k, replacement⟩

/-- The draw `1 + RandInt(len(self.range))()` of `RandKFrom.__call__`
(random.py line 202) used when `self.k` is falsy: `RandInt(m)` samples the
closed interval `[0, m]`, so the result is `1 + u` for the underlying uniform
draw `u ∈ {0, ..., m}`. -/
def RandKFrom_drawnK (m : Nat) (u : Nat) : Nat := 1 + (randIntScalar 0 m u).toNat

/-- `RandKFrom.__call__` (random.py lines 201-211), with the randomness made
explicit: `u` is the uniform draw behind `RandInt(len(range))()` (used only
when `self.k` is falsy), `shuffled` is the result of `random.shuffle` on the
copy `list(self.range)` (used only without replacement), and `us` are the
draws behind `RandInt(len(range))(k)` (used only with replacement).  Returns
the object state after the call together with the result; the state is
returned as stored because every list the method manipulates is a copy. -/
def RandKFrom_call [Inhabited α] (st : RandKFrom α) (u : Nat) (shuffled : List α)
    (us : List Nat) (n : Option PyArg) : RandKFrom α × Except String (List α) :=
  let k := match st.k with
    | some kk => if kk ≠ 0 then kk else RandKFrom_drawnK st.range.length u
    | none => RandKFrom_drawnK st.range.length u
  if isListOrTuple n || pyTruthy n then
    (st, Except.error errMulti)
  else if st.replacement = false then
    (st, Except.ok (shuffled.take k))
  else
    let index := (List.range k).map (fun i => (randIntScalar 0 st.range.length (us.getD i 0)).toNat)
    if index.all (fun i => i < st.range.length) then
      (st, Except.ok (index.map (fun i => st.range.getD i default)))
    else
      (st, Except.error errIndexOut)

lemma randKFrom_drawnK_eq (m u : Nat) : RandKFrom_drawnK m u = 1 + u := by
  simp [RandKFrom_drawnK, randIntScalar]

/-- C6 counterexample: over a candidate list of length 3, the underlying
uniform draw behind `1 + RandInt(3)()` ranges over `{0, ..., 3}` (the `max` of
`RandInt` is inclusive), and at the admissible draw `u = 3` the internally
drawn selection size is `4 ∉ {1, 2, 3}`. -/
theorem randKFrom_drawn_k_outside_range :
    (3 : Nat) ≤ 3 ∧ RandKFrom_drawnK 3 3 = 4 ∧ 4 ∉ Finset.Icc 1 3 := by
  refine ⟨le_refl 3, ?_, by decide⟩
  simp [randKFrom_drawnK_eq]

/-- C6 amended: for a `RandKFrom` with `k = None` over `m ≥ 1` candidates, the
internally drawn selection size is uniform over `{1, ..., m+1}` — each value
is hit by exactly one underlying uniform draw `u ∈ {0, ..., m}` — not over
`{1, ..., m}`; the selection returned without replacement nevertheless has
size `min (1+u) m`, which always lies in `{1, ..., m}`. -/
theorem randKFrom_random_k_support (m : Nat) (hm : 1 ≤ m) :
    Finset.image (RandKFrom_drawnK m) (Finset.Icc 0 m) = Finset.Icc 1 (m + 1)
    ∧ Set.InjOn (RandKFrom_drawnK m) (Finset.Icc 0 m)
    ∧ ∀ (st : RandKFrom Int), st.k = none → st.replacement = false →
        st.range.length = m →
        ∀ (u : Nat), u ≤ m → ∀ (shuffled : List Int) (us : List Nat),
          shuffled.Perm st.range →
          (RandKFrom_call st u shuffled us none).2 = Except.ok (shuffled.take (1 + u))
          ∧ (shuffled.take (1 + u)).length = min (1 + u) m
          ∧ 1 ≤ (shuffled.take (1 + u)).length
          ∧ (shuffled.take (1 + u)).length ≤ m := by
  refine ⟨?_, ?_, ?_⟩
  · ext j
    simp only [Finset.mem_image, Finset.mem_Icc, randKFrom_drawnK_eq]
    constructor
    · rintro ⟨u, ⟨-, hu⟩, rfl⟩; omega
    · rintro ⟨h1, h2⟩; exact ⟨j - 1, by omega, by omega⟩
  · intro a ha b hb hab
    simp only [randKFrom_drawnK_eq] at hab
    omega
  · intro st hk hrep hlen u hu shuffled us hperm
    have hslen : shuffled.length = m := by rw [hperm.length_eq, hlen]
    have hcall : (RandKFrom_call st u shuffled us none).2
        = Except.ok (shuffled.take (1 + u)) := by
      simp [RandKFrom_call, hk, hrep, isListOrTuple, pyTruthy, hlen, randKFrom_drawnK_eq]
    refine ⟨hcall, ?_, ?_, ?_⟩ <;> simp [List.length_take, hslen] <;> omega

/-- Witness for C6's amended theorem at `m = 1`,
`st = RandKFrom([5], k=None, replacement=False)`, `u = 0`,
`shuffled = [5]`. -/
theorem randKFrom_random_k_support_witness :
    (1 ≤ 1
     ∧ Finset.image (RandKFrom_drawnK 1) (Finset.Icc 0 1) = Finset.Icc 1 2)
    ∧ ((RandKFrom_call (⟨[5], none, false⟩ : RandKFrom Int) 0 [5] [] none).2
        = Except.ok ([5].take (1 + 0))
       ∧ ([(5 : Int)].take (1 + 0)).length = min (1 + 0) 1
       ∧ 1 ≤ ([(5 : Int)].take (1 + 0)).length
       ∧ ([(5 : Int)].take (1 + 0)).length ≤ 1) :=
  ⟨⟨le_refl 1, (randKFrom_random_k_support 1 (le_refl 1)).1⟩,
   (randKFrom_random_k_support 1 (le_refl 1)).2.2 ⟨[5], none, false⟩ rfl rfl rfl
     0 (Nat.zero_le 1) [5] [] (List.Perm.refl _)⟩

/-- C7: configuration errors are raised at construction: `Uniform` and
`RandInt` with no positional and no keyword `max` return the `ValueError`
from their constructors, and `RandKFrom` with `replacement=False` and an
integer `k` exceeding `len(range)` returns the `ValueError` from its
constructor — in each case before any sampling call exists. -/
theorem samplers_eager_config_errors :
    (∀ kwmin : Option ℚ, Uniform_init [] kwmin none = Except.error errNoMax)
    ∧ (∀ kwmin : Option Int, RandInt_init [] kwmin none = Except.error errNoMax)
    ∧ (∀ (range : List Int) (kk : Nat), range.length < kk →
        RandKFrom_init range (some kk) false = Except.error errTooMany) := by
  refine ⟨?_, ?_, ?_⟩
  · intro kwmin; cases kwmin <;> rfl
  · intro kwmin; cases kwmin <;> rfl
  · intro range kk h
    have hk0 : kk ≠ 0 := by omega
    simp [RandKFrom_init, kTruthyExceeds, hk0, h]

/-- Witness for C7: `Uniform()`, `RandInt()` and
`RandKFrom([7, 8], k=3, replacement=False)` all error at construction. -/
theorem samplers_eager_config_errors_witness :
    Uniform_init [] none none = Except.error errNoMax
    ∧ RandInt_init [] none none = Except.error errNoMax
    ∧ (([7, 8] : List Int).length < 3
       ∧ RandKFrom_init ([7, 8] : List Int) (some 3) false = Except.error errTooMany) :=
  ⟨samplers_eager_config_errors.1 none,
   samplers_eager_config_errors.2.1 none,
   by decide,
   samplers_eager_config_errors.2.2 [7, 8] 3 (by decide)⟩

/-- C8 counterexample: `n = 0` is non-null, yet `RandKFrom([10, 20])(0)` does
not raise — `or n` is falsy at `0`, so the call returns a selection set (here,
with draw `u = 0` and shuffle `[20, 10]`, the set `[20]`); and conversely the
`n = None` call is not always normal: `RandKFrom([10], replacement=True)()`
raises `IndexError` when one of the inclusive `randint(0, len(range))` index
draws equals `len(range)` (underlying draw 1 for the single candidate, an
admissible draw since the bound is inclusive). -/
theorem randKFrom_n_zero_returns :
    ((RandKFrom_call (⟨[10, 20], none, false⟩ : RandKFrom Int) 0 [20, 10] []
        (some (PyArg.int 0))).2 = Except.ok [20]
     ∧ some (PyArg.int 0) ≠ (none : Option PyArg))
    ∧ (RandKFrom_call (⟨[10], none, true⟩ : RandKFrom Int) 0 [] [1] none).2
        = Except.error errIndexOut := by
  exact ⟨⟨rfl, by decide⟩, rfl⟩

/-- C8 amended: `RandKFrom.__call__` raises the usage `ValueError` exactly when
`n` is a list/tuple or a truthy (nonzero) integer: for such `n` the call
errors, and with `n` absent it never raises that usage error; moreover with
`n` absent the call without replacement returns a selection set normally (with
replacement it can instead raise `IndexError`, per the counterexample). -/
theorem randKFrom_usage_error :
    (∀ (st : RandKFrom Int) (u : Nat) (shuffled : List Int) (us : List Nat)
        (n : Option PyArg), (isListOrTuple n || pyTruthy n) = true →
        (RandKFrom_call st u shuffled us n).2 = Except.error errMulti)
    ∧ (∀ (st : RandKFrom Int) (u : Nat) (shuffled : List Int) (us : List Nat),
        (RandKFrom_call st u shuffled us none).2 ≠ Except.error errMulti)
    ∧ (∀ (st : RandKFrom Int) (u : Nat) (shuffled : List Int) (us : List Nat),
        st.replacement = false →
        ∃ sel, (RandKFrom_call st u shuffled us none).2 = Except.ok sel) := by
  refine ⟨?_, ?_, ?_⟩
  · intro st u shuffled us n h
    simp [RandKFrom_call, h]
  · intro st u shuffled us
    have hg : (isListOrTuple (none : Option PyArg) || pyTruthy none) = false := rfl
    simp only [RandKFrom_call, hg, Bool.false_eq_true, if_false]
    split
    · simp
    · split
      · simp
      · simp [errIndexOut, errMulti]
  · intro st u shuffled us hrep
    obtain ⟨range, k, rep⟩ := st
    simp only at hrep
    subst hrep
    cases k with
    | none =>
      exact ⟨shuffled.take (RandKFrom_drawnK range.length u),
        by simp [RandKFrom_call, isListOrTuple, pyTruthy]⟩
    | some kk =>
      by_cases hkk : kk = 0
      · subst hkk
        exact ⟨shuffled.take (RandKFrom_drawnK range.length u),
          by simp [RandKFrom_call, isListOrTuple, pyTruthy]⟩
      · exact ⟨shuffled.take kk,
          by simp [RandKFrom_call, isListOrTuple, pyTruthy, hkk]⟩

/-- Witness for C8's amended theorem: `n = [2, 2]` (a shape) and `n = 2` both
raise; `n = None` never raises the usage error — also with replacement — and
returns a selection without replacement. -/
theorem randKFrom_usage_error_witness :
    ((isListOrTuple (some (PyArg.shape [2, 2])) || pyTruthy (some (PyArg.shape [2, 2]))) = true
     ∧ (RandKFrom_call (⟨[10, 20], none, false⟩ : RandKFrom Int) 0 [20, 10] []
          (some (PyArg.shape [2, 2]))).2 = Except.error errMulti)
    ∧ ((isListOrTuple (some (PyArg.int 2)) || pyTruthy (some (PyArg.int 2))) = true
       ∧ (RandKFrom_call (⟨[10, 20], none, false⟩ : RandKFrom Int) 0 [20, 10] []
            (some (PyArg.int 2))).2 = Except.error errMulti)
    ∧ (RandKFrom_call (⟨[10], none, true⟩ : RandKFrom Int) 0 [] [1] none).2
        ≠ Except.error errMulti
    ∧ ∃ sel, (RandKFrom_call (⟨[10, 20], none, false⟩ : RandKFrom Int) 0 [20, 10] []
          none).2 = Except.ok sel :=
  ⟨⟨by decide, randKFrom_usage_error.1 ⟨[10, 20], none, false⟩ 0 [20, 10] [] _ (by decide)⟩,
   ⟨by decide, randKFrom_usage_error.1 ⟨[10, 20], none, false⟩ 0 [20, 10] [] _ (by decide)⟩,
   randKFrom_usage_error.2.1 ⟨[10], none, true⟩ 0 [] [1],
   randKFrom_usage_error.2.2 ⟨[10, 20], none, false⟩ 0 [20, 10] [] rfl⟩

/-- Python `range(a, b)` as the list of integers `a, a+1, ..., b-1`, as used by
`RandomFlipTransform.get_parameters` for `range(-ndim, 0)`. -/
def pyRange (a b : Int) : List Int :=
  (List.range (b - a).toNat).map (fun i : Nat => a + (i : Int))

/-- `RandomFlipTransform.get_parameters` (fov.py lines 50-56), `axis=None`
case: with `ndim = x.dim() - 1`, the axis list handed to the materialized
`FlipTransform` is drawn by `RandKFrom(range(-ndim, 0))` (so `k=None` and
`replacement=False`). -/
def RandomFlipTransform_axis_sampler (ndim : Nat) : RandKFrom Int :=
  ⟨pyRange (-(ndim : Int)) 0, none, false⟩

lemma pyRange_length (a b : Int) : (pyRange a b).length = (b - a).toNat := by
  simp [pyRange]

lemma pyRange_nodup (a b : Int) : (pyRange a b).Nodup := by
  unfold pyRange
  apply List.Nodup.map
  · intro i j h
    have h2 := add_left_cancel h
    exact_mod_cast h2
  · exact List.nodup_range _

lemma pyRange_mem {a b x : Int} (h : x ∈ pyRange a b) : a ≤ x ∧ x < b := by
  simp only [pyRange, List.mem_map, List.mem_range] at h
  obtain ⟨i, hi, rfl⟩ := h
  omega

/-- C10: for an input with `x.dim() ≥ 2`, every axis list that
`RandomFlipTransform.get_parameters` (with `axis=None`) can draw — for any
admissible internal draw `u` of `RandKFrom`'s random `k` and any shuffle of
the candidate list `range(-ndim, 0)` — is nonempty, has no duplicate axes,
and contains only axes in `{-(dim-1), ..., -1}`; in particular the channel
axis `0` is never flipped. -/
theorem randomFlip_axes_valid (dim : Nat) (hdim : 2 ≤ dim) (u : Nat) (_hu : u ≤ dim - 1)
    (shuffled : List Int) (us : List Nat)
    (hperm : shuffled.Perm (RandomFlipTransform_axis_sampler (dim - 1)).range) :
    (RandKFrom_call (RandomFlipTransform_axis_sampler (dim - 1)) u shuffled us none).2
      = Except.ok (shuffled.take (1 + u))
    ∧ shuffled.take (1 + u) ≠ []
    ∧ (shuffled.take (1 + u)).Nodup
    ∧ (∀ a ∈ shuffled.take (1 + u), -((dim : Int) - 1) ≤ a ∧ a ≤ -1)
    ∧ (0 : Int) ∉ shuffled.take (1 + u) := by
  have hrange : (RandomFlipTransform_axis_sampler (dim - 1)).range
      = pyRange (-((dim - 1 : Nat) : Int)) 0 := rfl
  have hlen : shuffled.length = dim - 1 := by
    rw [hperm.length_eq, hrange, pyRange_length]
    omega
  have hmem : ∀ a ∈ shuffled.take (1 + u), -((dim : Int) - 1) ≤ a ∧ a ≤ -1 := by
    intro a ha
    have h1 : a ∈ shuffled := List.mem_of_mem_take ha
    have h2 : a ∈ pyRange (-((dim - 1 : Nat) : Int)) 0 := by
      rw [← hrange]
      exact hperm.mem_iff.mp h1
    have h3 := pyRange_mem h2
    have hcast : ((dim - 1 : Nat) : Int) = (dim : Int) - 1 := by omega
    omega
  refine ⟨?_, ?_, ?_, hmem, ?_⟩
  · simp [RandKFrom_call, RandomFlipTransform_axis_sampler, isListOrTuple, pyTruthy,
      randKFrom_drawnK_eq]
  · have hpos : 0 < (shuffled.take (1 + u)).length := by
      rw [List.length_take, hlen]
      omega
    exact List.length_pos.mp hpos
  · have hnd : shuffled.Nodup := by
      refine hperm.nodup_iff.mpr ?_
      rw [hrange]
      exact pyRange_nodup _ _
    exact hnd.sublist (List.take_sublist _ _)
  · intro h0
    have := hmem 0 h0
    omega

/-- Witness for C10 at `dim = 2`, draw `u = 0`, shuffle `[-1]`: the drawn axis
list is `[-1]`. -/
theorem randomFlip_axes_valid_witness :
    (2 ≤ 2 ∧ 0 ≤ 2 - 1
     ∧ ([-1] : List Int).Perm (RandomFlipTransform_axis_sampler (2 - 1)).range)
    ∧ ((RandKFrom_call (RandomFlipTransform_axis_sampler (2 - 1)) 0 [-1] [] none).2
        = Except.ok (([-1] : List Int).take (1 + 0))
       ∧ ([-1] : List Int).take (1 + 0) ≠ []
       ∧ (([-1] : List Int).take (1 + 0)).Nodup
       ∧ (∀ a ∈ ([-1] : List Int).take (1 + 0), -((2 : Int) - 1) ≤ a ∧ a ≤ -1)
       ∧ (0 : Int) ∉ ([-1] : List Int).take (1 + 0)) :=
  ⟨⟨le_refl 2, Nat.zero_le _, List.Perm.refl _⟩,
   randomFlip_axes_valid 2 (le_refl 2) 0 (Nat.zero_le _) [-1] [] (List.Perm.refl _)⟩

/-- A value stored in a `Sampler`'s `theta` mapping: a scalar or a sequence. -/
inductive PyVal where
  | scalar (x : ℚ)
  | list (xs : List ℚ)
deriving Repr, DecidableEq

/-- The `theta` mapping of a `Sampler`: parameter name to stored value. -/
abbrev Theta := List (String × PyVal)

/-- Modelled from the spec: the one-argument form of the list-normalization
helper `ensure_list` (`cornucopia.utils.py`, not under `src/`): wrap a scalar
in a one-element list, pass a sequence through unchanged. -/
def ensure_list1 : PyVal → List ℚ
  | PyVal.scalar x => [x]
  | PyVal.list xs => xs

/-- Modelled from the spec: the two-argument form of the list-normalization
helper `ensure_list` (`cornucopia.utils.py`, not under `src/`): return a list
of exactly `n` elements, broadcasting shorter input by repetition. -/
def ensure_listN (v : PyVal) (n : Nat) : List ℚ :=
  let xs := ensure_list1 v
  if xs.length = 0 then List.replicate n 0
  else (List.range n).map (fun i => xs.getD (i % xs.length) 0)

/-- Whether a stored value is a Python list/tuple, as tested by
`isinstance(v, (list, tuple))` in `Sampler._ensure_same_length`. -/
def PyVal.isSeq : PyVal → Bool
  | PyVal.scalar _ => false
  | PyVal.list _ => true

/-- Length of `theta[k]` after the first normalization pass of
`Sampler._ensure_same_length` (where every value is a list). -/
def PyVal.seqLen : PyVal → Nat
  | PyVal.scalar _ => 1
  | PyVal.list xs => xs.length

/-- `Sampler._ensure_same_length` (random.py lines 30-42).  The method starts
with `theta = dict(theta)`, a copy; every subsequent `theta[k] = ...`
assignment mutates that copy, so the embedding maps over the copy and the
caller's stored mapping is untouched.  `if nsamples:` is Python truthiness:
`None` and `0` take the `elif` branch.  The `elif` branch runs only when some
value is a list/tuple; it first replaces each value by `ensure_list(v)` while
accumulating the maximum length, then broadcasts every value to that
length. -/
def Sampler_ensure_same_length (theta : Theta) (nsamples : Option Nat) : Theta :=
  let thetaLocal := theta
  match nsamples with
  | some (nn + 1) =>
      thetaLocal.map (fun kv => (kv.1, PyVal.list (ensure_listN kv.2 (nn + 1))))
  | _ =>
      if thetaLocal.any (fun kv => kv.2.isSeq) then
        let l1 := thetaLocal.map (fun kv => (kv.1, PyVal.list (ensure_list1 kv.2)))
        let nmax := l1.foldl (fun acc kv => max acc kv.2.seqLen) 0
        l1.map (fun kv => (kv.1, PyVal.list (ensure_listN kv.2 nmax)))
      else thetaLocal

/-- `Sampler.__getattr__` (random.py lines 53-58): when `item` is a key of
`theta`, normalize a copy via `_ensure_same_length` and return the normalized
value; the stored `theta` is never assigned.  Returns (stored theta after the
read, lookup result — `none` standing for `AttributeError`). -/
def Sampler_getattr (theta : Theta) (item : String) : Theta × Option PyVal :=
  match theta.lookup item with
  | some _ =>
      let thetaN := Sampler_ensure_same_length theta none
      (theta, thetaN.lookup item)
  | none => (theta, none)

/-- The stored `theta` after a sequence of attribute reads. -/
def Sampler_read_sequence (theta : Theta) (items : List String) : Theta :=
  items.foldl (fun t item => (Sampler_getattr t item).1) theta

/-- C9: reading configured parameters through `Sampler.__getattr__` — in any
sequence — leaves the stored `theta` exactly as the constructor stored it
(`_ensure_same_length` normalizes `dict(theta)`, a copy), and
`RandKFrom.__call__` leaves the stored configuration (including the candidate
list, of which it shuffles the copy `list(self.range)`) unchanged, whatever
the arguments and draws. -/
theorem sampler_state_unchanged :
    (∀ (theta : Theta) (items : List String), Sampler_read_sequence theta items = theta)
    ∧ (∀ (st : RandKFrom Int) (u : Nat) (shuffled : List Int) (us : List Nat)
        (n : Option PyArg), (RandKFrom_call st u shuffled us n).1 = st) := by
  constructor
  · intro theta items
    induction items generalizing theta with
    | nil => rfl
    | cons it rest ih =>
      have hstep : (Sampler_getattr theta it).1 = theta := by
        unfold Sampler_getattr
        cases theta.lookup it <;> rfl
      simp only [Sampler_read_sequence, List.foldl_cons] at ih ⊢
      rw [hstep]
      exact ih theta
  · intro st u shuffled us n
    unfold RandKFrom_call
    dsimp only
    split
    · rfl
    · split
      · rfl
      · split <;> rfl
